import Mathlib

/-!
Verification of the well-log-analysis repository's LAS parsing, formation
classification, lithology reference geometry and porosity derivation.

The Python source is shallowly embedded:
a text line is a list of characters, a DataFrame row is a total valuation of
column names over the rationals (machine floats are idealised as exact `ℚ`),
exceptions become `Except` / explicit result constructors, and the in-place
loops of the source become structural recursions that perform the same steps
in the same order.
-/

namespace WellLog

/-- A raw text line, as read by `f.readlines()`. -/
abbrev Line := List Char

/-- ASCII whitespace recognised by Python's `str.strip` / `str.split`. -/
def pySpace (c : Char) : Bool :=
  c = ' ' || c = '\t' || c = '\n' || c = '\r' || c = '\x0b' || c = '\x0c'

/-- Python `str.strip()`: remove leading and trailing whitespace. -/
def stripPy (l : List Char) : List Char :=
  ((l.dropWhile pySpace).reverse.dropWhile pySpace).reverse

/-- Helper for `splitWS`: accumulate the current (reversed) token. -/
def splitWSAux : List Char → List Char → List (List Char)
  | [], acc => if acc.isEmpty then [] else [acc.reverse]
  | c :: rest, acc =>
      if pySpace c then
        if acc.isEmpty then splitWSAux rest [] else acc.reverse :: splitWSAux rest []
      else splitWSAux rest (c :: acc)

/-- Python `str.split()` with no argument: split on whitespace runs, dropping
empty tokens. -/
def splitWS (l : List Char) : List (List Char) :=
  splitWSAux l []

/-- The literal section marker `~Curve Information Block` (crossplots.py line 284). -/
def curveMarkerLit : Line := "~Curve Information Block".toList

/-- The literal section marker `~ASCII` (crossplots.py line 286). -/
def asciiMarkerLit : Line := "~ASCII".toList

/-- `line.strip().startswith('~Curve Information Block')`. -/
def isCurveMarker (l : Line) : Bool :=
  curveMarkerLit.isPrefixOf (stripPy l)

/-- `line.strip().startswith('~ASCII')`. -/
def isAsciiMarker (l : Line) : Bool :=
  asciiMarkerLit.isPrefixOf (stripPy l)

/-- The marker-scanning loop of crossplots.py lines 281-288: every curve-marker
match overwrites `curve_start`; the first ASCII match records `i + 1` and breaks. -/
def findMarkers : List Line → ℕ → Option ℕ → Option ℕ × Option ℕ
  | [], _, cs => (cs, none)
  | l :: rest, i, cs =>
      let cs' := if isCurveMarker l then some i else cs
      if isAsciiMarker l then (cs', some (i + 1))
      else findMarkers rest (i + 1) cs'

/-- The curve-name loop of crossplots.py lines 291-297: skip blank and `#` lines,
split on whitespace, take the first token's text before the first `.`. -/
def extractCurveNames : List Line → List Line
  | [] => []
  | l :: rest =>
      if ("#".toList).isPrefixOf (stripPy l) || (stripPy l).isEmpty then
        extractCurveNames rest
      else
        match splitWS l with
        | [] => extractCurveNames rest
        | p :: _ => (p.takeWhile (fun c => c ≠ '.')) :: extractCurveNames rest

/-- The value space of Python's `float()`: finite values idealised as exact
rationals, plus the signed infinities and NaN. -/
inductive PyFloat where
  | num (q : ℚ) : PyFloat
  | inf (negative : Bool) : PyFloat
  | nan : PyFloat
deriving DecidableEq

/-- Helper for `digitsVal?`: consume digits with single underscores allowed
between digits, accumulating the value and the digit count. -/
def digitsValAux : List Char → ℕ → ℕ → Option (ℕ × ℕ)
  | [], acc, cnt => some (acc, cnt)
  | '_' :: c :: rest, acc, cnt =>
      if c.isDigit then digitsValAux rest (acc * 10 + (c.toNat - 48)) (cnt + 1) else none
  | ['_'], _, _ => none
  | c :: rest, acc, cnt =>
      if c.isDigit then digitsValAux rest (acc * 10 + (c.toNat - 48)) (cnt + 1) else none

/-- A nonempty digit group as accepted inside a Python float literal
(underscores only between digits); returns (value, number of digits). -/
def digitsVal? : List Char → Option (ℕ × ℕ)
  | [] => none
  | c :: rest => if c.isDigit then digitsValAux rest (c.toNat - 48) 1 else none

/-- Split at the first character satisfying `p`; the second component is the
remainder after that character when one was found. -/
def breakAt (p : Char → Bool) : List Char → List Char × Option (List Char)
  | [] => ([], none)
  | c :: rest =>
      if p c then ([], some rest)
      else
        let r := breakAt p rest
        (c :: r.1, r.2)

/-- Assemble the rational value of a decimal literal: integer part `iv`,
fractional digits with value `fv` and digit count `fn`, decimal exponent `ex`. -/
def qVal (iv fv fn : ℕ) (ex : ℤ) : ℚ :=
  ((iv : ℚ) + (fv : ℚ) / (10 : ℚ) ^ fn) * (10 : ℚ) ^ ex

/-- The numeric (non-special) grammar of Python's `float()` after the optional
sign: `digits [. digits] [exponent]`, `. digits [exponent]`, or `digits .
[exponent]`, with an optionally signed digit-group exponent after `e`/`E`. -/
def pyNumVal? (body : List Char) : Option ℚ :=
  let em := breakAt (fun c => c = 'e' || c = 'E') body
  let exq : Option ℤ :=
    match em.2 with
    | none => some 0
    | some etail =>
        match etail with
        | '+' :: r => (digitsVal? r).map (fun p => (p.1 : ℤ))
        | '-' :: r => (digitsVal? r).map (fun p => -(p.1 : ℤ))
        | r => (digitsVal? r).map (fun p => (p.1 : ℤ))
  match exq with
  | none => none
  | some ex =>
      let dm := breakAt (fun c => c = '.') em.1
      match dm.2 with
      | none => (digitsVal? dm.1).map (fun p => qVal p.1 0 0 ex)
      | some fp =>
          if dm.1.isEmpty && fp.isEmpty then none
          else
            match (if dm.1.isEmpty then some (0, 0) else digitsVal? dm.1),
                  (if fp.isEmpty then some (0, 0) else digitsVal? fp) with
            | some ip, some fq => some (qVal ip.1 fq.1 fq.2 ex)
            | _, _ => none

/-- Python's `float(token)`: strip whitespace, take an optional sign, accept
the case-insensitive specials `inf`, `infinity`, `nan`, otherwise the decimal
grammar; `none` models a raised `ValueError`. -/
def pyFloat? (tok : Line) : Option PyFloat :=
  let s := stripPy tok
  if s.isEmpty then none
  else
    let signed : Bool × List Char :=
      match s with
      | '+' :: r => (false, r)
      | '-' :: r => (true, r)
      | r => (false, r)
    let low := signed.2.map Char.toLower
    if low = "inf".toList || low = "infinity".toList then some (.inf signed.1)
    else if low = "nan".toList then some .nan
    else (pyNumVal? signed.2).map (fun q => .num (if signed.1 then -q else q))

/-- The exceptions the parsing path of crossplots.py lines 277-305 can raise:
`typeError` from `None + 1` / slicing with `None` when a marker is missing,
`valueError tok` from `float(tok)`, and pandas' column-count mismatch on
`pd.DataFrame(data, columns=...)`. -/
inductive LasError where
  | typeError : LasError
  | valueError (tok : Line) : LasError
  | dataFrameError (columnsPassed dataColumns : ℕ) : LasError
deriving DecidableEq

/-- `[float(x) for x in line.split()]`: the first non-numeric token raises. -/
def parseRow : List (List Char) → Except LasError (List PyFloat)
  | [] => .ok []
  | t :: rest =>
      match pyFloat? t with
      | none => .error (.valueError t)
      | some v => (parseRow rest).map (fun r => v :: r)

/-- Python's truthiness test `if line.strip():` for a line. -/
def nonblank (l : Line) : Bool := !(stripPy l).isEmpty

/-- The data loop of crossplots.py lines 300-303: skip blank lines, convert the
tokens of every other line. -/
def parseData : List Line → Except LasError (List (List PyFloat))
  | [] => .ok []
  | l :: rest =>
      if nonblank l then
        match parseRow (splitWS l) with
        | .error e => .error e
        | .ok row => (parseData rest).map (fun rows => row :: rows)
      else parseData rest

/-- Width pandas infers for a list-of-lists payload: the maximum row length. -/
def maxWidth (rows : List (List PyFloat)) : ℕ :=
  rows.foldr (fun r m => max r.length m) 0

/-- `pd.DataFrame(data, columns=curve_names)` on a list of lists: an empty
payload always succeeds; otherwise the inferred width (maximum row length) must
equal the number of columns, and narrower rows are padded with NaN. -/
def mkDataFrame (rows : List (List PyFloat)) (cols : List Line) :
    Except LasError (List (List PyFloat)) :=
  match rows with
  | [] => .ok []
  | _ =>
      let w := maxWidth rows
      if cols.length = w then
        .ok (rows.map (fun r => r ++ List.replicate (w - r.length) PyFloat.nan))
      else .error (.dataFrameError cols.length w)

/-- The curve-name slice `lines[curve_start+1 : ascii_start-1]` together with
the extraction loop. -/
def parseCurveNames (lines : List Line) (cs ascii : ℕ) : List Line :=
  extractCurveNames ((lines.drop (cs + 1)).take (ascii - 1 - (cs + 1)))

/-- The whole LAS parsing path of crossplots.py lines 280-305 (identical to
visualization.py lines 143-168): locate the markers, extract curve names,
convert the data lines, and build the DataFrame. -/
def parse (lines : List Line) : Except LasError (List Line × List (List PyFloat)) :=
  match findMarkers lines 0 none with
  | (some cs, some ascii) =>
      let names := parseCurveNames lines cs ascii
      match parseData (lines.drop ascii) with
      | .error e => .error e
      | .ok rows => (mkDataFrame rows names).map (fun table => (names, table))
  | _ => .error .typeError

/-- A DataFrame row, modelled as a total valuation of column names. -/
abbrev Row := String → ℚ

/-- The null sentinel `-999.25`, written as the normalised rational `-3997/4`
so that it evaluates by kernel reduction (exact equality, per the domain
convention); `nullSentinel_eq` checks it against the decimal literal. -/
def nullSentinel : ℚ := ⟨-3997, 4, by decide, by decide⟩

/-- The filter of crossplots.py line 67:
`df[(df[neutron_col] != -999.25) & (df[density_col] != -999.25)]`. -/
def validData (df : List Row) (neutronCol densityCol : String) : List Row :=
  df.filter (fun r => decide (r neutronCol ≠ nullSentinel ∧ r densityCol ≠ nullSentinel))

/-- Ordering of formation tops by their depth (second component). -/
def topLE (a b : String × ℚ) : Prop := a.2 ≤ b.2

instance : DecidableRel topLE := fun a b => inferInstanceAs (Decidable (a.2 ≤ b.2))

instance : IsTotal (String × ℚ) topLE := ⟨fun a b => le_total a.2 b.2⟩

instance : IsTrans (String × ℚ) topLE := ⟨fun _ _ _ h1 h2 => le_trans h1 h2⟩

/-- The sort of crossplots.py lines 84-86: `np.argsort(depth_list)` applied to
both the depth list and the formation list, i.e. sorting the pairs by depth. -/
def sortTops (tops : List (String × ℚ)) : List (String × ℚ) :=
  List.insertionSort topLE tops

/-- The classification loop of crossplots.py lines 94-97: start from index 0 and
overwrite the index at every top whose depth is at or above it
(`if depth >= top_depth: formation_idx = i`). -/
def lastQualifying (depth : ℚ) : List ℚ → ℕ → ℕ → ℕ
  | [], _, acc => acc
  | d :: rest, i, acc => lastQualifying depth rest (i + 1) (if d ≤ depth then i else acc)

/-- The final `formation_idx` for a sample depth over a depth list. -/
def classifyIdx (depth : ℚ) (depths : List ℚ) : ℕ :=
  lastQualifying depth depths 0 0

/-- `formation_list[formation_idx]` for a (pre-sorted) list of tops; total with
a junk default, which theorems exclude by requiring nonempty tops. -/
def classify (depth : ℚ) (tops : List (String × ℚ)) : String :=
  (tops.map Prod.fst).getD (classifyIdx depth (tops.map Prod.snd)) ""

/-- Observable outcome of `neutron_density_crossplot`: the early "no data"
return, a formation-coded plot (scatter points plus per-sample formation
labels), a depth-coded plot, or the IndexError raised by
`formation_colors[formation_idx]` when the tops mapping is empty. -/
inductive CrossplotResult where
  | noData : CrossplotResult
  | plot (points : List (ℚ × ℚ)) (labels : List String) : CrossplotResult
  | plotByDepth (points : List (ℚ × ℚ)) : CrossplotResult
  | indexError : CrossplotResult
deriving DecidableEq

/-- crossplots.py lines 32-135: filter null sentinels, return the "no data"
result on an empty filter; with formation tops, sort them by depth and label
every valid sample by the classification loop (an empty tops dictionary makes
`formation_colors[0]` raise IndexError at the first sample); without tops,
scatter colored by depth. -/
def neutron_density_crossplot (df : List Row) (neutronCol densityCol depthCol : String)
    (formationTops : Option (List (String × ℚ))) : CrossplotResult :=
  let valid := validData df neutronCol densityCol
  if valid.length = 0 then .noData
  else
    match formationTops with
    | some tops =>
        if tops.isEmpty then .indexError
        else
          .plot (valid.map (fun r => (r neutronCol, r densityCol)))
                (valid.map (fun r => classify (r depthCol) (sortTops tops)))
    | none => .plotByDepth (valid.map (fun r => (r neutronCol, r densityCol)))

/-- pandas `Series.clip(lo, hi)` on one value. -/
def pclip (x lo hi : ℚ) : ℚ :=
  if x < lo then lo else if x > hi then hi else x

/-- The PHID computation of crossplots.py lines 215-216:
`(matrix_density - bulk) / (matrix_density - fluid_density)` clipped to [0, 1]. -/
def density_porosity (bulkDensity matrixDensity fluidDensity : ℚ) : ℚ :=
  pclip ((matrixDensity - bulkDensity) / (matrixDensity - fluidDensity)) 0 1

/-- The filter of crossplots.py lines 219-224: null sentinels on the neutron and
density columns, plus the range conditions on the already clipped PHID. -/
def porosity_valid (df : List Row) (neutronCol densityCol : String)
    (matrixDensity fluidDensity : ℚ) : List Row :=
  df.filter (fun r =>
    decide (r neutronCol ≠ nullSentinel ∧ r densityCol ≠ nullSentinel ∧
      0 ≤ density_porosity (r densityCol) matrixDensity fluidDensity ∧
      density_porosity (r densityCol) matrixDensity fluidDensity ≤ 1))

/-- crossplots.py line 150: `[[0, 2.65], [0.4, 2.35]]`. -/
def sandstone_line : List (ℚ × ℚ) := [(0, 2.65), (0.4, 2.35)]

/-- crossplots.py line 151: `[[0, 2.71], [0.4, 2.31]]`. -/
def limestone_line : List (ℚ × ℚ) := [(0, 2.71), (0.4, 2.31)]

/-- crossplots.py line 152: `[[0, 2.87], [0.4, 2.47]]`. -/
def dolomite_line : List (ℚ × ℚ) := [(0, 2.87), (0.4, 2.47)]

/-- The three lithology lines plotted by `add_lithology_lines`
(crossplots.py lines 155-157), in plot order. -/
def lithologyLines : List (String × List (ℚ × ℚ)) :=
  [("Sandstone", sandstone_line), ("Limestone", limestone_line), ("Dolomite", dolomite_line)]

instance {ε α : Type} [DecidableEq ε] [DecidableEq α] : DecidableEq (Except ε α) := fun a b =>
  match a, b with
  | .ok x, .ok y => decidable_of_iff (x = y) (by simp)
  | .error x, .error y => decidable_of_iff (x = y) (by simp)
  | .ok _, .error _ => isFalse (by simp)
  | .error _, .ok _ => isFalse (by simp)

/-- The greatest index of an entry at most `d`, if any: a functional rendering
of what the mutable `formation_idx` loop computes. -/
def lastIdxGE (d : ℚ) : List ℚ → Option ℕ
  | [] => none
  | x :: rest =>
      match lastIdxGE d rest with
      | some j => some (j + 1)
      | none => if x ≤ d then some 0 else none

/-- The example tops sequence used by the specification's classifier tests. -/
def topsABC : List (String × ℚ) := [("A", 0), ("B", 100), ("C", 200)]

/-- A malformed LAS text whose second data row has 1 field while 2 curves are
declared; pandas pads the short row, so parsing succeeds. -/
def shortRowLas : List Line :=
  ["~Curve Information Block".toList,
   "A.unit".toList,
   "B.unit".toList,
   "~ASCII".toList,
   "1.0 2.0".toList,
   "3.0".toList]

/-- Curve block pieces of a LAS text whose only data row has 3 fields while 2
curves are declared (the inferred width 3 mismatches the 2 columns). -/
def wideRowTail : List Line := ["1.0 2.0 3.0".toList]

/-- Curve declarations shared by the malformed-data demonstration texts. -/
def abCurveMid : List Line := ["A.unit".toList, "B.unit".toList]

/-- Data section holding a non-numeric token. -/
def badTokenTail : List Line := ["1.0 xyz".toList]

/-- Well-formed demonstration curve block: two declarations. -/
def demoMid : List Line := ["DEPT.M   depth".toList, "NEU.v/v  neutron".toList]

/-- Well-formed demonstration data section: two rows of two numeric fields. -/
def demoTail : List Line := ["100.5 0.25".toList, "200.5 -999.25".toList]

/-- An earlier curve-marker line (trimmed content starts with the marker),
appearing before the one the parser ends up using. -/
def staleCurveBlock : List Line :=
  ["~Curve Information Block (old)".toList, "OLD.M".toList]

/-- Data section for the duplicated-marker demonstration. -/
def oneColTail : List Line := ["1.0".toList]

/-- Curve declarations between the last curve marker and the ASCII marker. -/
def newCurveMid : List Line := ["NEW.M".toList]

/-- A single-row table whose depth is 150 and whose log values are valid. -/
def dupTopsDf : List Row := [fun c => if c = "DEPT" then 150 else 0]

/-- A single-row table with valid log values, for the empty-tops demonstration. -/
def emptyTopsDf : List Row := [fun _ => 7]

/-- A single-row table whose neutron value is the null sentinel. -/
def allNullDf : List Row := [fun c => if c = "NEU" then nullSentinel else 0]

/-- A single-row table with valid log values, for the permutation demonstration. -/
def permDf : List Row := [fun c => if c = "DEPT" then 150 else 0.3]

/-- A single-row table for the porosity-filter demonstration. -/
def phidDf : List Row := [fun c => if c = "DEN" then 2.2 else 0.2]

theorem nullSentinel_eq : nullSentinel = -999.25 := by
  rw [show nullSentinel = Rat.divInt (-3997) 4 from Rat.mk'_eq_divInt]
  rw [Rat.divInt_eq_div]
  norm_num

theorem pclip_nonneg (x : ℚ) : 0 ≤ pclip x 0 1 := by
  unfold pclip
  split_ifs <;> linarith

theorem pclip_le_one (x : ℚ) : pclip x 0 1 ≤ 1 := by
  unfold pclip
  split_ifs <;> linarith

theorem pclip_eq_min_max (x : ℚ) : pclip x 0 1 = min 1 (max 0 x) := by
  unfold pclip
  split_ifs with h1 h2
  · rw [max_eq_left (le_of_lt h1), min_eq_right]
    norm_num
  · rw [max_eq_right, min_eq_left] <;> linarith
  · rw [max_eq_right, min_eq_right] <;> linarith

/-- C5: the lithology reference geometry is a fixed three-entry table with the
literal endpoints sandstone (0, 2.65)→(0.4, 2.35), limestone
(0, 2.71)→(0.4, 2.31), dolomite (0, 2.87)→(0.4, 2.47), independent of any
input data. -/
theorem lithology_lines_fixed :
    lithologyLines.length = 3 ∧
    lithologyLines =
      [("Sandstone", [((0 : ℚ), (2.65 : ℚ)), (0.4, 2.35)]),
       ("Limestone", [(0, 2.71), (0.4, 2.31)]),
       ("Dolomite", [(0, 2.87), (0.4, 2.47)])] := by
  exact ⟨rfl, rfl⟩

/-- C6: density porosity is the formula
`(matrix - bulk) / (matrix - fluid)` clamped to `[0, 1]`, and with the default
parameters 2.65 and 1.0 it maps 2.65 to 0, 1.0 to 1, and clips 3.0 to 0. -/
theorem density_porosity_clamp :
    (∀ b m f : ℚ, m ≠ f →
        density_porosity b m f = min 1 (max 0 ((m - b) / (m - f))))
    ∧ density_porosity 2.65 2.65 1 = 0
    ∧ density_porosity 1 2.65 1 = 1
    ∧ density_porosity 3 2.65 1 = 0 := by
  refine ⟨fun b m f _ => pclip_eq_min_max _, ?_, ?_, ?_⟩ <;>
    norm_num [density_porosity, pclip]

/-- C6 witness: the clamp characterisation applied at bulk density 1.3 with the
default matrix and fluid densities. -/
theorem density_porosity_clamp_witness :
    (2.65 : ℚ) ≠ 1
    ∧ density_porosity 1.3 2.65 1 = min 1 (max 0 ((2.65 - 1.3) / (2.65 - 1))) :=
  ⟨by norm_num, density_porosity_clamp.1 1.3 2.65 1 (by norm_num)⟩

/-- C8: because PHID is clipped to [0, 1] before the range filter, the range
conditions always hold, so the porosity filter retains exactly the rows the
null-sentinel filters on the neutron and density columns retain. -/
theorem porosity_filter_noop (df : List Row) (neutronCol densityCol : String)
    (matrixDensity fluidDensity : ℚ) (_hmf : matrixDensity ≠ fluidDensity) :
    porosity_valid df neutronCol densityCol matrixDensity fluidDensity
      = validData df neutronCol densityCol := by
  unfold porosity_valid validData
  apply List.filter_congr
  intro r _
  rw [decide_eq_decide]
  constructor
  · rintro ⟨h1, h2, -, -⟩
    exact ⟨h1, h2⟩
  · rintro ⟨h1, h2⟩
    exact ⟨h1, h2, pclip_nonneg _, pclip_le_one _⟩

/-- C8 witness: the porosity filter and the plain sentinel filter coincide on a
concrete one-row table with the default densities. -/
theorem porosity_filter_noop_witness :
    (2.65 : ℚ) ≠ 1
    ∧ porosity_valid phidDf "NEU" "DEN" 2.65 1 = validData phidDf "NEU" "DEN" :=
  ⟨by norm_num, porosity_filter_noop phidDf "NEU" "DEN" 2.65 1 (by norm_num)⟩

/-- C7: when every row carries the null sentinel in the neutron or density
column, the filtered valid set is empty, and the cross-plot renderer returns
the explicit no-data result (for any formation-tops argument) instead of
raising. -/
theorem crossplot_all_null_no_data (df : List Row)
    (neutronCol densityCol depthCol : String)
    (formationTops : Option (List (String × ℚ)))
    (h : ∀ r ∈ df, r neutronCol = nullSentinel ∨ r densityCol = nullSentinel) :
    neutron_density_crossplot df neutronCol densityCol depthCol formationTops
      = .noData := by
  have hvalid : validData df neutronCol densityCol = [] := by
    rw [validData, List.filter_eq_nil_iff]
    intro r hr
    rcases h r hr with h1 | h1 <;> simp [h1]
  unfold neutron_density_crossplot
  rw [hvalid]
  rfl

/-- C7 witness: a one-row table whose neutron value is the sentinel yields the
no-data result. -/
theorem crossplot_all_null_no_data_witness :
    (∀ r ∈ allNullDf, r "NEU" = nullSentinel ∨ r "DEN" = nullSentinel)
    ∧ neutron_density_crossplot allNullDf "NEU" "DEN" "DEPT" none = .noData :=
  ⟨by decide, crossplot_all_null_no_data allNullDf "NEU" "DEN" "DEPT" none (by decide)⟩

theorem lastQualifying_eq (d : ℚ) :
    ∀ (l : List ℚ) (i acc : ℕ),
      lastQualifying d l i acc =
        match lastIdxGE d l with
        | some j => i + j
        | none => acc := by
  intro l
  induction l with
  | nil => intro i acc; rfl
  | cons x rest ih =>
      intro i acc
      show lastQualifying d rest (i + 1) (if x ≤ d then i else acc) = _
      rw [ih]
      cases hr : lastIdxGE d rest with
      | some j =>
          have hR : lastIdxGE d (x :: rest) = some (j + 1) := by
            simp [lastIdxGE, hr]
          rw [hR]
          show i + 1 + j = i + (j + 1)
          omega
      | none =>
          have hR : lastIdxGE d (x :: rest) = if x ≤ d then some 0 else none := by
            simp [lastIdxGE, hr]
          rw [hR]
          split_ifs with hx
          · show i = i + 0
            omega
          · rfl

theorem lastIdxGE_filter (d : ℚ) :
    ∀ tops : List (String × ℚ),
      (match lastIdxGE d (tops.map Prod.snd) with
       | some j => some ((tops.map Prod.fst).getD j "")
       | none => none)
      = ((tops.filter (fun t => decide (t.2 ≤ d))).getLast?).map Prod.fst := by
  intro tops
  induction tops with
  | nil => rfl
  | cons t rest ih =>
      simp only [List.map_cons]
      cases hr : lastIdxGE d (rest.map Prod.snd) with
      | some j =>
          rw [hr] at ih
          have hstep : lastIdxGE d (t.2 :: rest.map Prod.snd) = some (j + 1) := by
            simp [lastIdxGE, hr]
          rw [hstep]
          simp only [List.getD_cons_succ]
          by_cases hp : t.2 ≤ d
          · rw [List.filter_cons, if_pos (by simpa using hp)]
            cases hfr : rest.filter (fun t => decide (t.2 ≤ d)) with
            | nil => rw [hfr] at ih; simp at ih
            | cons fh ft =>
                rw [List.getLast?_cons_cons, ← hfr]
                exact ih
          · rw [List.filter_cons, if_neg (by simpa using hp)]
            exact ih
      | none =>
          rw [hr] at ih
          have hfr : rest.filter (fun t => decide (t.2 ≤ d)) = [] := by
            refine List.getLast?_eq_none_iff.mp ?_
            cases hgl : (rest.filter (fun t => decide (t.2 ≤ d))).getLast? with
            | none => rfl
            | some u => rw [hgl] at ih; simp at ih
          have hstep : lastIdxGE d (t.2 :: rest.map Prod.snd)
              = if t.2 ≤ d then some 0 else none := by
            simp [lastIdxGE, hr]
          rw [hstep]
          by_cases hp : t.2 ≤ d
          · simp [List.filter_cons, hp, hfr]
          · simp [List.filter_cons, hp, hfr]

/-- C3: for nonempty tops sorted ascending by depth, the classification loop
returns the name of the last top whose depth is at most the sample depth, and
the name of the first top when no top qualifies; on the specification's example
tops [(A,0),(B,100),(C,200)] it gives A, B, C, A at depths 50, 150, 250, -10. -/
theorem classify_last_top_rule :
    (∀ (tops : List (String × ℚ)) (d : ℚ) (h : tops ≠ []),
        List.Sorted topLE tops →
        classify d tops =
          match (tops.filter (fun t => decide (t.2 ≤ d))).getLast? with
          | some t => t.1
          | none => (tops.head h).1)
    ∧ classify 50 topsABC = "A" ∧ classify 150 topsABC = "B"
    ∧ classify 250 topsABC = "C" ∧ classify (-10) topsABC = "A" := by
  refine ⟨?_, by decide, by decide, by decide, by decide⟩
  intro tops d h _
  unfold classify classifyIdx
  rw [lastQualifying_eq]
  have hb := lastIdxGE_filter d tops
  rcases hL2 : lastIdxGE d (tops.map Prod.snd) with _ | j
  case none =>
    rw [hL2] at hb
    rcases hf2 : (tops.filter (fun t => decide (t.2 ≤ d))).getLast? with _ | u
    case none =>
      rw [hf2]
      show (tops.map Prod.fst).getD 0 "" = (tops.head h).1
      cases tops with
      | nil => exact absurd rfl h
      | cons a t => simp
    case some =>
      rw [hf2] at hb
      exact Option.noConfusion (hb.trans rfl)
  case some =>
    rw [hL2] at hb
    have hb' : some ((tops.map Prod.fst).getD j "")
        = ((tops.filter (fun t => decide (t.2 ≤ d))).getLast?).map Prod.fst := hb
    rcases hf2 : (tops.filter (fun t => decide (t.2 ≤ d))).getLast? with _ | u
    case none =>
      rw [hf2] at hb'
      exact Option.noConfusion (hb'.trans rfl)
    case some =>
      rw [hf2]
      rw [hf2] at hb'
      show (tops.map Prod.fst).getD (0 + j) "" = u.1
      rw [zero_add]
      exact Option.some.inj (hb'.trans rfl)

/-- C3 witness: the last-top rule applied to the example tops at depth 50. -/
theorem classify_last_top_rule_witness :
    topsABC ≠ [] ∧ List.Sorted topLE topsABC ∧ classify 50 topsABC = "A" := by
  refine ⟨by decide, by decide, ?_⟩
  rw [classify_last_top_rule.1 topsABC 50 (by decide) (by decide)]
  decide

/-- C4 counterexample: a tops mapping with the duplicate depths
[("A",100),("B",100)] is accepted and classified normally (the renderer
produces a plot), so the classifier does not fail on duplicate top depths. -/
theorem classifier_duplicate_tops_accepted :
    neutron_density_crossplot dupTopsDf "NEU" "DEN" "DEPT"
        (some [("A", 100), ("B", 100)])
      = .plot [(0, 0)] ["B"] := by decide

/-- C4 (amended): the renderer performs no InvalidInputError validation of the
formation tops: an empty tops mapping combined with at least one valid sample
fails with the IndexError from `formation_colors[formation_idx]`, while any
nonempty tops mapping — duplicate depths included — never fails. -/
theorem crossplot_tops_validation (df : List Row)
    (neutronCol densityCol depthCol : String) (tops : List (String × ℚ)) :
    ((validData df neutronCol densityCol).length ≠ 0 → tops = [] →
        neutron_density_crossplot df neutronCol densityCol depthCol (some tops)
          = .indexError)
    ∧ (tops ≠ [] →
        neutron_density_crossplot df neutronCol densityCol depthCol (some tops)
          ≠ .indexError) := by
  constructor
  · intro hlen htops
    subst htops
    unfold neutron_density_crossplot
    simp [hlen]
  · intro htops
    unfold neutron_density_crossplot
    by_cases hlen : (validData df neutronCol densityCol).length = 0
    · simp [hlen]
    · have hemp : tops.isEmpty = false := by
        simpa [List.isEmpty_iff] using htops
      simp [hlen, hemp]

/-- C4 witness: with an empty tops mapping and one valid sample the renderer
hits the IndexError. -/
theorem crossplot_tops_validation_witness :
    (validData emptyTopsDf "NEU" "DEN").length ≠ 0
    ∧ neutron_density_crossplot emptyTopsDf "NEU" "DEN" "DEPT" (some [])
        = .indexError :=
  ⟨by decide,
   (crossplot_tops_validation emptyTopsDf "NEU" "DEN" "DEPT" []).1 (by decide) rfl⟩

theorem eq_of_perm_sorted_nodup_keys :
    ∀ l₁ l₂ : List (String × ℚ), l₁.Perm l₂ →
      List.Sorted topLE l₁ → List.Sorted topLE l₂ →
      (l₁.map Prod.snd).Nodup → l₁ = l₂ := by
  intro l₁
  induction l₁ with
  | nil =>
      intro l₂ hp _ _ _
      exact hp.nil_eq
  | cons a t ih =>
      intro l₂ hp hs₁ hs₂ hnd
      cases l₂ with
      | nil => exact absurd hp.eq_nil (by simp)
      | cons b t₂ =>
          have hs₁' := List.sorted_cons.mp hs₁
          have hs₂' := List.sorted_cons.mp hs₂
          rw [List.map_cons, List.nodup_cons] at hnd
          have hnd' := hnd
          have hab : a = b := by
            have ha : a ∈ b :: t₂ := hp.mem_iff.mp (List.mem_cons_self a t)
            have hb : b ∈ a :: t := hp.mem_iff.mpr (List.mem_cons_self b t₂)
            rcases List.mem_cons.mp ha with h1 | h1
            · exact h1
            rcases List.mem_cons.mp hb with h2 | h2
            · exact h2.symm
            have e1 : a.2 ≤ b.2 := hs₁'.1 b h2
            have e2 : b.2 ≤ a.2 := hs₂'.1 a h1
            have hmem : a.2 ∈ t.map Prod.snd :=
              le_antisymm e1 e2 ▸ List.mem_map_of_mem Prod.snd h2
            exact absurd hmem hnd'.1
          subst hab
          rw [ih t₂ hp.cons_inv hs₁'.2 hs₂'.2 hnd'.2]

theorem sortTops_eq_of_perm (tops₁ tops₂ : List (String × ℚ))
    (hperm : tops₁.Perm tops₂) (hnd : (tops₁.map Prod.snd).Nodup) :
    sortTops tops₁ = sortTops tops₂ := by
  have p₁ : (sortTops tops₁).Perm tops₁ := List.perm_insertionSort topLE tops₁
  have p₂ : (sortTops tops₂).Perm tops₂ := List.perm_insertionSort topLE tops₂
  refine eq_of_perm_sorted_nodup_keys _ _ (p₁.trans (hperm.trans p₂.symm))
    (List.sorted_insertionSort topLE tops₁) (List.sorted_insertionSort topLE tops₂) ?_
  exact ((p₁.map Prod.snd).nodup_iff).mpr hnd

/-- C10: with distinct top depths, the renderer's formation assignment does not
depend on the order in which the caller lists the formation tops, because the
tops are sorted by depth before the classification loop runs. -/
theorem crossplot_tops_permutation_invariant (df : List Row)
    (neutronCol densityCol depthCol : String) (tops₁ tops₂ : List (String × ℚ))
    (hperm : tops₁.Perm tops₂) (hnd : (tops₁.map Prod.snd).Nodup) :
    neutron_density_crossplot df neutronCol densityCol depthCol (some tops₁)
      = neutron_density_crossplot df neutronCol densityCol depthCol (some tops₂) := by
  have hsort := sortTops_eq_of_perm tops₁ tops₂ hperm hnd
  have hemp : tops₁.isEmpty = tops₂.isEmpty := by
    cases tops₁ with
    | nil =>
        cases tops₂ with
        | nil => rfl
        | cons b t₂ => exact absurd hperm.nil_eq (by simp)
    | cons a t =>
        cases tops₂ with
        | nil => exact absurd hperm.eq_nil (by simp)
        | cons b t₂ => rfl
  by_cases hlen : (validData df neutronCol densityCol).length = 0
  · unfold neutron_density_crossplot
    simp [hlen]
  · unfold neutron_density_crossplot
    simp only [hlen, if_false]
    rw [hemp, hsort]

/-- C10 witness: the renderer result is the same for the tops listed as
[(A,1),(B,2)] and as [(B,2),(A,1)]. -/
theorem crossplot_tops_permutation_invariant_witness :
    ([(("A" : String), (1 : ℚ)), ("B", 2)]).Perm [("B", 2), ("A", 1)]
    ∧ (([(("A" : String), (1 : ℚ)), ("B", 2)]).map Prod.snd).Nodup
    ∧ neutron_density_crossplot permDf "NEU" "DEN" "DEPT"
          (some [("A", 1), ("B", 2)])
        = neutron_density_crossplot permDf "NEU" "DEN" "DEPT"
          (some [("B", 2), ("A", 1)]) :=
  ⟨by decide, by decide,
   crossplot_tops_permutation_invariant permDf "NEU" "DEN" "DEPT"
     [("A", 1), ("B", 2)] [("B", 2), ("A", 1)] (by decide) (by decide)⟩

theorem curve_prefix_not_ascii (s : List Char)
    (h : curveMarkerLit.isPrefixOf s = true) : asciiMarkerLit.isPrefixOf s = false := by
  obtain ⟨t, ht⟩ := List.isPrefixOf_iff_prefix.mp h
  subst ht
  rw [show curveMarkerLit = '~' :: 'C' :: "urve Information Block".toList from rfl]
  rw [show asciiMarkerLit = '~' :: 'A' :: "SCII".toList from rfl]
  simp [List.isPrefixOf]

theorem ascii_prefix_not_curve (s : List Char)
    (h : asciiMarkerLit.isPrefixOf s = true) : curveMarkerLit.isPrefixOf s = false := by
  obtain ⟨t, ht⟩ := List.isPrefixOf_iff_prefix.mp h
  subst ht
  rw [show curveMarkerLit = '~' :: 'C' :: "urve Information Block".toList from rfl]
  rw [show asciiMarkerLit = '~' :: 'A' :: "SCII".toList from rfl]
  simp [List.isPrefixOf]

theorem curve_not_ascii (l : Line) (h : isCurveMarker l = true) :
    isAsciiMarker l = false :=
  curve_prefix_not_ascii (stripPy l) h

theorem ascii_not_curve (l : Line) (h : isAsciiMarker l = true) :
    isCurveMarker l = false :=
  ascii_prefix_not_curve (stripPy l) h

theorem findMarkers_mid (aLine : Line) (post : List Line)
    (ha : isAsciiMarker aLine = true) :
    ∀ (mid : List Line) (i : ℕ) (cs : Option ℕ),
      (∀ l ∈ mid, isAsciiMarker l = false ∧ isCurveMarker l = false) →
      findMarkers (mid ++ aLine :: post) i cs = (cs, some (i + mid.length + 1)) := by
  intro mid
  induction mid with
  | nil =>
      intro i cs _
      show findMarkers (aLine :: post) i cs = (cs, some (i + 0 + 1))
      have hcf : isCurveMarker aLine = false := ascii_not_curve aLine ha
      simp [findMarkers, hcf, ha]
  | cons l mid ih =>
      intro i cs h
      have h1 := h l (List.mem_cons_self l mid)
      have h2 : ∀ x ∈ mid, isAsciiMarker x = false ∧ isCurveMarker x = false :=
        fun x hx => h x (List.mem_cons_of_mem l hx)
      show findMarkers (l :: (mid ++ aLine :: post)) i cs = _
      rw [show findMarkers (l :: (mid ++ aLine :: post)) i cs
          = findMarkers (mid ++ aLine :: post) (i + 1) cs from by
        simp [findMarkers, h1.1, h1.2]]
      rw [ih (i + 1) cs h2, List.length_cons]
      have e1 : i + 1 + mid.length + 1 = i + (mid.length + 1) + 1 := by omega
      rw [e1]

theorem findMarkers_structured (cLine aLine : Line) (mid post : List Line)
    (hc : isCurveMarker cLine = true) (ha : isAsciiMarker aLine = true)
    (hmid : ∀ l ∈ mid, isAsciiMarker l = false ∧ isCurveMarker l = false) :
    ∀ (pre : List Line) (i : ℕ) (cs : Option ℕ),
      (∀ l ∈ pre, isAsciiMarker l = false) →
      findMarkers (pre ++ cLine :: (mid ++ aLine :: post)) i cs
        = (some (i + pre.length), some (i + pre.length + mid.length + 2)) := by
  intro pre
  induction pre with
  | nil =>
      intro i cs _
      show findMarkers (cLine :: (mid ++ aLine :: post)) i cs = _
      have hca : isAsciiMarker cLine = false := curve_not_ascii cLine hc
      rw [show findMarkers (cLine :: (mid ++ aLine :: post)) i cs
          = findMarkers (mid ++ aLine :: post) (i + 1) (some i) from by
        simp [findMarkers, hc, hca]]
      rw [findMarkers_mid aLine post ha mid (i + 1) (some i) hmid, List.length_nil]
      have e1 : i + 0 = i := by omega
      have e2 : i + 1 + mid.length + 1 = i + 0 + mid.length + 2 := by omega
      rw [e2, e1]
  | cons p pre ih =>
      intro i cs hpre
      have h1 : isAsciiMarker p = false := hpre p (List.mem_cons_self p pre)
      have h2 : ∀ l ∈ pre, isAsciiMarker l = false :=
        fun l hl => hpre l (List.mem_cons_of_mem p hl)
      show findMarkers (p :: (pre ++ cLine :: (mid ++ aLine :: post))) i cs = _
      rw [show findMarkers (p :: (pre ++ cLine :: (mid ++ aLine :: post))) i cs
          = findMarkers (pre ++ cLine :: (mid ++ aLine :: post)) (i + 1)
              (if isCurveMarker p then some i else cs) from by
        simp [findMarkers, h1]]
      rw [ih (i + 1) _ h2, List.length_cons]
      have e1 : i + 1 + pre.length = i + (pre.length + 1) := by omega
      rw [e1]

theorem structured_names_slice (pre mid post : List Line) (cLine aLine : Line) :
    parseCurveNames (pre ++ cLine :: (mid ++ aLine :: post)) pre.length
      (pre.length + mid.length + 2) = extractCurveNames mid := by
  unfold parseCurveNames
  have h1 : pre.length + mid.length + 2 - 1 - (pre.length + 1) = mid.length := by omega
  rw [h1]
  have h2 : pre ++ cLine :: (mid ++ aLine :: post)
      = (pre ++ [cLine]) ++ (mid ++ aLine :: post) := by simp
  rw [h2]
  have h3 : pre.length + 1 = (pre ++ [cLine]).length := by simp
  rw [h3, List.drop_left]
  rw [show mid.length = mid.length from rfl, List.take_left mid (aLine :: post)]

theorem structured_data_slice (pre mid post : List Line) (cLine aLine : Line) :
    (pre ++ cLine :: (mid ++ aLine :: post)).drop (pre.length + mid.length + 2)
      = post := by
  have h2 : pre ++ cLine :: (mid ++ aLine :: post)
      = (pre ++ cLine :: (mid ++ [aLine])) ++ post := by simp
  rw [h2]
  have h3 : pre.length + mid.length + 2 = (pre ++ cLine :: (mid ++ [aLine])).length := by
    simp
    omega
  rw [h3, List.drop_left]

theorem parseRow_ok_of_all : ∀ toks : List (List Char),
    (∀ t ∈ toks, (pyFloat? t).isSome = true) →
    ∃ r, parseRow toks = .ok r ∧ r.length = toks.length := by
  intro toks
  induction toks with
  | nil => intro _; exact ⟨[], rfl, rfl⟩
  | cons t rest ih =>
      intro h
      obtain ⟨v, hv⟩ := Option.isSome_iff_exists.mp (h t (List.mem_cons_self t rest))
      obtain ⟨r, hr, hlen⟩ := ih (fun x hx => h x (List.mem_cons_of_mem t hx))
      exact ⟨v :: r, by simp [parseRow, hv, hr, Except.map], by simp [hlen]⟩

theorem parseRow_ok_all_tokens : ∀ (toks : List (List Char)) (r : List PyFloat),
    parseRow toks = .ok r → ∀ t ∈ toks, (pyFloat? t).isSome = true := by
  intro toks
  induction toks with
  | nil => intro r _ t ht; simp at ht
  | cons a rest ih =>
      intro r hr t ht
      cases hv : pyFloat? a with
      | none => simp [parseRow, hv] at hr
      | some v =>
          rcases List.mem_cons.mp ht with h | h
          · subst h; simp [hv]
          · cases hrest : parseRow rest with
            | error e => simp [parseRow, hv, hrest, Except.map] at hr
            | ok r2 => exact ih r2 hrest t h

theorem parseRow_error_shape : ∀ (toks : List (List Char)) (e : LasError),
    parseRow toks = .error e → ∃ tok, e = .valueError tok := by
  intro toks
  induction toks with
  | nil => intro e he; simp [parseRow] at he
  | cons a rest ih =>
      intro e he
      cases hv : pyFloat? a with
      | none =>
          refine ⟨a, ?_⟩
          simp [parseRow, hv] at he
          exact he.symm
      | some v =>
          cases hrest : parseRow rest with
          | error e2 =>
              have : e = e2 := by simp [parseRow, hv, hrest, Except.map] at he; exact he.symm
              exact this ▸ ih e2 hrest
          | ok r2 => simp [parseRow, hv, hrest, Except.map] at he

theorem parseRow_error_of_bad : ∀ toks : List (List Char),
    (∃ t ∈ toks, pyFloat? t = none) →
    ∃ tok, parseRow toks = .error (.valueError tok) := by
  intro toks
  induction toks with
  | nil => rintro ⟨t, ht, -⟩; simp at ht
  | cons a rest ih =>
      rintro ⟨t, ht, hbad⟩
      cases hv : pyFloat? a with
      | none => exact ⟨a, by simp [parseRow, hv]⟩
      | some v =>
          have hrest : ∃ t ∈ rest, pyFloat? t = none := by
            rcases List.mem_cons.mp ht with h | h
            · subst h; rw [hbad] at hv; cases hv
            · exact ⟨t, h, hbad⟩
          obtain ⟨tok, htok⟩ := ih hrest
          exact ⟨tok, by simp [parseRow, hv, htok, Except.map]⟩

theorem parseData_ok_map : ∀ post : List Line,
    (∀ l ∈ post, nonblank l = true → ∀ t ∈ splitWS l, (pyFloat? t).isSome = true) →
    ∃ rows, parseData post = .ok rows
      ∧ rows.map List.length
          = (post.filter nonblank).map (fun l => (splitWS l).length) := by
  intro post
  induction post with
  | nil => intro _; exact ⟨[], rfl, rfl⟩
  | cons l rest ih =>
      intro h
      obtain ⟨rows, hrows, hmap⟩ :=
        ih (fun x hx hnb => h x (List.mem_cons_of_mem l hx) hnb)
      by_cases hnb : nonblank l = true
      · obtain ⟨r, hr, hlen⟩ :=
          parseRow_ok_of_all (splitWS l) (h l (List.mem_cons_self l rest) hnb)
        refine ⟨r :: rows, ?_, ?_⟩
        · simp [parseData, hnb, hr, hrows, Except.map]
        · simp [List.filter_cons, hnb, hmap, hlen]
      · refine ⟨rows, ?_, ?_⟩
        · simp [parseData, hnb, hrows]
        · simp [List.filter_cons, hnb, hmap]

theorem parseData_error_of_bad : ∀ post : List Line,
    (∃ l ∈ post, nonblank l = true ∧ ∃ t ∈ splitWS l, pyFloat? t = none) →
    ∃ tok, parseData post = .error (.valueError tok) := by
  intro post
  induction post with
  | nil => rintro ⟨l, hl, -⟩; simp at hl
  | cons a rest ih =>
      rintro ⟨l, hl, hnb, t, ht, hbad⟩
      by_cases hna : nonblank a = true
      · cases hpr : parseRow (splitWS a) with
        | error e =>
            obtain ⟨tok, htok⟩ := parseRow_error_shape (splitWS a) e hpr
            exact ⟨tok, by simp [parseData, hna, hpr, htok]⟩
        | ok r =>
            have hall := parseRow_ok_all_tokens (splitWS a) r hpr
            have hrest : ∃ x ∈ rest, nonblank x = true
                ∧ ∃ t ∈ splitWS x, pyFloat? t = none := by
              rcases List.mem_cons.mp hl with h | h
              · subst h
                have hsome := hall t ht
                rw [hbad] at hsome
                simp at hsome
              · exact ⟨l, h, hnb, t, ht, hbad⟩
            obtain ⟨tok, htok⟩ := ih hrest
            exact ⟨tok, by simp [parseData, hna, hpr, htok, Except.map]⟩
      · have hrest : ∃ x ∈ rest, nonblank x = true
            ∧ ∃ t ∈ splitWS x, pyFloat? t = none := by
          rcases List.mem_cons.mp hl with h | h
          · subst h; exact absurd hnb hna
          · exact ⟨l, h, hnb, t, ht, hbad⟩
        obtain ⟨tok, htok⟩ := ih hrest
        exact ⟨tok, by simp [parseData, hna, htok]⟩

theorem maxWidth_eq_foldr (rows : List (List PyFloat)) :
    maxWidth rows = (rows.map List.length).foldr max 0 := by
  induction rows with
  | nil => rfl
  | cons r rest ih =>
      show max r.length (maxWidth rest) = ((r :: rest).map List.length).foldr max 0
      rw [ih]
      simp

theorem maxWidth_uniform : ∀ (rows : List (List PyFloat)) (k : ℕ), rows ≠ [] →
    (∀ r ∈ rows, r.length = k) → maxWidth rows = k := by
  intro rows
  induction rows with
  | nil => intro k h _; exact absurd rfl h
  | cons r rest ih =>
      intro k _ hall
      have hr := hall r (List.mem_cons_self r rest)
      cases rest with
      | nil => simp [maxWidth, hr]
      | cons r2 rest2 =>
          have h2 := ih k (by simp) (fun x hx => hall x (List.mem_cons_of_mem r hx))
          show max r.length (maxWidth (r2 :: rest2)) = k
          rw [h2, hr, max_self]

theorem mkDataFrame_cons (r : List PyFloat) (rest : List (List PyFloat))
    (cols : List Line) :
    mkDataFrame (r :: rest) cols =
      if cols.length = maxWidth (r :: rest) then
        .ok ((r :: rest).map
          (fun row => row ++ List.replicate (maxWidth (r :: rest) - row.length) PyFloat.nan))
      else .error (.dataFrameError cols.length (maxWidth (r :: rest))) := rfl

theorem mkDataFrame_ok_of_uniform (rows : List (List PyFloat)) (cols : List Line)
    (k : ℕ) (hcols : cols.length = k) (hrows : ∀ r ∈ rows, r.length = k) :
    mkDataFrame rows cols = .ok rows := by
  cases rows with
  | nil => rfl
  | cons r rest =>
      have hw : maxWidth (r :: rest) = k := maxWidth_uniform _ k (by simp) hrows
      rw [mkDataFrame_cons, hw, hcols, if_pos rfl]
      have hid : (r :: rest).map (fun row => row ++ List.replicate (k - row.length) PyFloat.nan)
          = (r :: rest).map id := by
        apply List.map_congr_left
        intro a ha
        rw [hrows a ha]
        simp
      rw [hid, List.map_id]

theorem except_isOk_ok {ε α : Type} (a : α) : (Except.ok a : Except ε α).isOk = true := rfl

theorem except_isOk_error {ε α : Type} (e : ε) :
    (Except.error e : Except ε α).isOk = false := rfl

theorem except_map_isOk {ε α β : Type} (e : Except ε α) (f : α → β) :
    (e.map f).isOk = e.isOk := by
  cases e <;> rfl

theorem mkDataFrame_isOk_iff (rows : List (List PyFloat)) (cols : List Line) :
    (mkDataFrame rows cols).isOk = true ↔ (rows = [] ∨ cols.length = maxWidth rows) := by
  cases rows with
  | nil => simp [mkDataFrame, except_isOk_ok]
  | cons r rest =>
      rw [mkDataFrame_cons]
      by_cases hc : cols.length = maxWidth (r :: rest)
      · simp [hc, except_isOk_ok]
      · simp [hc, except_isOk_error]

theorem parse_structured_eq (pre mid post : List Line) (cLine aLine : Line)
    (hpre : ∀ l ∈ pre, isAsciiMarker l = false)
    (hc : isCurveMarker cLine = true)
    (hmid : ∀ l ∈ mid, isAsciiMarker l = false ∧ isCurveMarker l = false)
    (ha : isAsciiMarker aLine = true) :
    parse (pre ++ cLine :: (mid ++ aLine :: post)) =
      match parseData post with
      | .error e => .error e
      | .ok rows => (mkDataFrame rows (extractCurveNames mid)).map
          (fun table => (extractCurveNames mid, table)) := by
  have hm : findMarkers (pre ++ cLine :: (mid ++ aLine :: post)) 0 none
      = (some pre.length, some (pre.length + mid.length + 2)) := by
    simpa using findMarkers_structured cLine aLine mid post hc ha hmid pre 0 none hpre
  unfold parse
  rw [hm]
  show (match parseData ((pre ++ cLine :: (mid ++ aLine :: post)).drop
          (pre.length + mid.length + 2)) with
        | Except.error e => (Except.error e : Except LasError (List Line × List (List PyFloat)))
        | Except.ok rows =>
            (mkDataFrame rows (parseCurveNames (pre ++ cLine :: (mid ++ aLine :: post))
                pre.length (pre.length + mid.length + 2))).map
              (fun table => (parseCurveNames (pre ++ cLine :: (mid ++ aLine :: post))
                pre.length (pre.length + mid.length + 2), table))) = _
  rw [structured_names_slice pre mid post cLine aLine,
    structured_data_slice pre mid post cLine aLine]

/-- C9: every curve-marker line before the first ASCII line overwrites the
recorded curve index, so the scan yields the last curve marker together with
the line after the first ASCII marker, and the curve names are extracted
exactly from the lines strictly between those two markers. -/
theorem parse_last_curve_marker (pre mid post : List Line) (cLine aLine : Line)
    (hpre : ∀ l ∈ pre, isAsciiMarker l = false)
    (hc : isCurveMarker cLine = true)
    (hmid : ∀ l ∈ mid, isAsciiMarker l = false ∧ isCurveMarker l = false)
    (ha : isAsciiMarker aLine = true) :
    findMarkers (pre ++ cLine :: (mid ++ aLine :: post)) 0 none
      = (some pre.length, some (pre.length + mid.length + 2))
    ∧ parseCurveNames (pre ++ cLine :: (mid ++ aLine :: post)) pre.length
        (pre.length + mid.length + 2) = extractCurveNames mid := by
  constructor
  · simpa using findMarkers_structured cLine aLine mid post hc ha hmid pre 0 none hpre
  · exact structured_names_slice pre mid post cLine aLine

/-- C9 witness: with two curve-marker lines before the ASCII marker, the scan
records the second one, and the names come from the lines after it. -/
theorem parse_last_curve_marker_witness :
    (∀ l ∈ staleCurveBlock, isAsciiMarker l = false)
    ∧ isCurveMarker "~Curve Information Block".toList = true
    ∧ (∀ l ∈ newCurveMid, isAsciiMarker l = false ∧ isCurveMarker l = false)
    ∧ isAsciiMarker "~ASCII".toList = true
    ∧ findMarkers (staleCurveBlock ++ "~Curve Information Block".toList ::
          (newCurveMid ++ "~ASCII".toList :: oneColTail)) 0 none
        = (some staleCurveBlock.length,
            some (staleCurveBlock.length + newCurveMid.length + 2))
    ∧ parseCurveNames (staleCurveBlock ++ "~Curve Information Block".toList ::
          (newCurveMid ++ "~ASCII".toList :: oneColTail)) staleCurveBlock.length
        (staleCurveBlock.length + newCurveMid.length + 2)
        = extractCurveNames newCurveMid :=
  ⟨by decide, by decide, by decide, by decide,
   (parse_last_curve_marker staleCurveBlock newCurveMid oneColTail _ _
     (by decide) (by decide) (by decide) (by decide)).1,
   (parse_last_curve_marker staleCurveBlock newCurveMid oneColTail _ _
     (by decide) (by decide) (by decide) (by decide)).2⟩

/-- C1: on a well-formed LAS text — a curve marker, then declaration lines,
then the first ASCII marker, then data lines each splitting into exactly as
many numeric tokens as there are declared mnemonics — parse succeeds with the
mnemonics in file order (duplicates preserved) and one table row of full width
per non-blank data line. -/
theorem parse_wellformed_counts (pre mid post : List Line) (cLine aLine : Line)
    (hpre : ∀ l ∈ pre, isAsciiMarker l = false)
    (hc : isCurveMarker cLine = true)
    (hmid : ∀ l ∈ mid, isAsciiMarker l = false ∧ isCurveMarker l = false)
    (ha : isAsciiMarker aLine = true)
    (hdata : ∀ l ∈ post, nonblank l = true →
        (splitWS l).length = (extractCurveNames mid).length
        ∧ ∀ t ∈ splitWS l, (pyFloat? t).isSome = true) :
    ∃ table,
      parse (pre ++ cLine :: (mid ++ aLine :: post))
        = .ok (extractCurveNames mid, table)
      ∧ table.length = (post.filter nonblank).length
      ∧ ∀ row ∈ table, row.length = (extractCurveNames mid).length := by
  obtain ⟨rows, hrows, hmap⟩ :=
    parseData_ok_map post (fun l hl hnb t ht => (hdata l hl hnb).2 t ht)
  have hlenrows : ∀ r ∈ rows, r.length = (extractCurveNames mid).length := by
    intro r hr
    have hmem : r.length ∈ rows.map List.length := List.mem_map_of_mem List.length hr
    rw [hmap] at hmem
    obtain ⟨l, hl, hlen⟩ := List.mem_map.mp hmem
    have hl2 := List.mem_filter.mp hl
    rw [← hlen]
    exact (hdata l hl2.1 hl2.2).1
  refine ⟨rows, ?_, ?_, hlenrows⟩
  · rw [parse_structured_eq pre mid post cLine aLine hpre hc hmid ha, hrows]
    show (mkDataFrame rows (extractCurveNames mid)).map
        (fun table => (extractCurveNames mid, table)) = _
    rw [mkDataFrame_ok_of_uniform rows (extractCurveNames mid)
      (extractCurveNames mid).length rfl hlenrows]
    rfl
  · have := congrArg List.length hmap
    simpa using this

/-- C1 witness: a two-curve, two-row LAS text parses to two names and a 2×2
table. -/
theorem parse_wellformed_counts_witness :
    (∀ l ∈ ([] : List Line), isAsciiMarker l = false)
    ∧ isCurveMarker "~Curve Information Block".toList = true
    ∧ (∀ l ∈ demoMid, isAsciiMarker l = false ∧ isCurveMarker l = false)
    ∧ isAsciiMarker "~ASCII".toList = true
    ∧ (∀ l ∈ demoTail, nonblank l = true →
        (splitWS l).length = (extractCurveNames demoMid).length
        ∧ ∀ t ∈ splitWS l, (pyFloat? t).isSome = true)
    ∧ ∃ table,
        parse (([] : List Line) ++ "~Curve Information Block".toList ::
            (demoMid ++ "~ASCII".toList :: demoTail))
          = .ok (extractCurveNames demoMid, table)
        ∧ table.length = (demoTail.filter nonblank).length
        ∧ ∀ row ∈ table, row.length = (extractCurveNames demoMid).length :=
  ⟨by decide, by decide, by decide, by decide, by decide,
   parse_wellformed_counts [] demoMid demoTail _ _
     (by decide) (by decide) (by decide) (by decide) (by decide)⟩

-- C2 counterexample: in `shortRowLas` the second data row has 1 field while 2
-- curves are declared, yet parse succeeds — pandas infers width 2 from the
-- longest row and pads the short row with NaN — so parse does not fail whenever
-- a row's field count differs from the curve-name count. The `unseal` only
-- lifts the reducibility shield on the rational primitives so `decide` can
-- evaluate the parsed numeric cells.
unseal Rat.add Rat.mul Rat.inv in
theorem parse_short_row_accepted :
    parse shortRowLas
      = .ok (["A".toList, "B".toList],
          [[.num 1, .num 2], [.num 3, PyFloat.nan]]) := by decide

/-- C2 (amended): parse raises (a TypeError, not a MalformedLasError, which
does not exist) when either marker is missing, and a ValueError naming the
offending token when a data token is not numeric; a data row's field count is
not checked during parsing — the table constructor fails only when the maximum
row width over the non-blank data lines differs from the curve-name count,
padding narrower rows with NaN, and its error does not name a line. -/
theorem parse_failure_modes :
    (∀ lines : List Line,
        (findMarkers lines 0 none).1 = none ∨ (findMarkers lines 0 none).2 = none →
        parse lines = .error .typeError)
    ∧ (∀ (pre mid post : List Line) (cLine aLine : Line),
        (∀ l ∈ pre, isAsciiMarker l = false) →
        isCurveMarker cLine = true →
        (∀ l ∈ mid, isAsciiMarker l = false ∧ isCurveMarker l = false) →
        isAsciiMarker aLine = true →
        ((∃ l ∈ post, nonblank l = true ∧ ∃ t ∈ splitWS l, pyFloat? t = none) →
            ∃ tok, parse (pre ++ cLine :: (mid ++ aLine :: post))
              = .error (.valueError tok))
        ∧ ((∀ l ∈ post, nonblank l = true →
              ∀ t ∈ splitWS l, (pyFloat? t).isSome = true) →
            ((parse (pre ++ cLine :: (mid ++ aLine :: post))).isOk = true ↔
              (post.filter nonblank = [] ∨
                (extractCurveNames mid).length
                  = ((post.filter nonblank).map
                      (fun l => (splitWS l).length)).foldr max 0)))) := by
  constructor
  · intro lines h
    rcases hm : findMarkers lines 0 none with ⟨a, b⟩
    rw [hm] at h
    unfold parse
    rw [hm]
    cases a with
    | none => rfl
    | some c =>
        cases b with
        | none => rfl
        | some d => rcases h with h | h <;> simp at h
  · intro pre mid post cLine aLine hpre hc hmid ha
    constructor
    · rintro hbad
      obtain ⟨tok, htok⟩ := parseData_error_of_bad post hbad
      rw [parse_structured_eq pre mid post cLine aLine hpre hc hmid ha, htok]
      exact ⟨tok, rfl⟩
    · intro hnum
      obtain ⟨rows, hrows, hmap⟩ := parseData_ok_map post hnum
      rw [parse_structured_eq pre mid post cLine aLine hpre hc hmid ha, hrows]
      show ((mkDataFrame rows (extractCurveNames mid)).map
          (fun table => (extractCurveNames mid, table))).isOk = true ↔ _
      rw [except_map_isOk, mkDataFrame_isOk_iff]
      have h1 : rows = [] ↔ post.filter nonblank = [] := by
        constructor
        · intro h
          subst h
          exact (List.map_eq_nil_iff.mp hmap.symm)
        · intro h
          rw [h] at hmap
          simp at hmap
          exact hmap
      rw [h1, maxWidth_eq_foldr, hmap]

/-- C2 witness: the markers-missing, bad-token, and width-mismatch failure
modes at concrete inputs. -/
theorem parse_failure_modes_witness :
    parse ["GR 1.0".toList] = .error .typeError
    ∧ (∃ tok, parse (([] : List Line) ++ "~Curve Information Block".toList ::
        (abCurveMid ++ "~ASCII".toList :: badTokenTail))
          = .error (.valueError tok))
    ∧ ((parse (([] : List Line) ++ "~Curve Information Block".toList ::
        (abCurveMid ++ "~ASCII".toList :: wideRowTail))).isOk = true ↔
        (wideRowTail.filter nonblank = [] ∨
          (extractCurveNames abCurveMid).length
            = ((wideRowTail.filter nonblank).map
                (fun l => (splitWS l).length)).foldr max 0)) :=
  ⟨parse_failure_modes.1 ["GR 1.0".toList] (by decide),
   (parse_failure_modes.2 [] abCurveMid badTokenTail _ _
     (by decide) (by decide) (by decide) (by decide)).1 (by decide),
   (parse_failure_modes.2 [] abCurveMid wideRowTail _ _
     (by decide) (by decide) (by decide) (by decide)).2 (by decide)⟩

end WellLog
